import Mathlib

/-!
Verification of the context profiler (scripts/context-profiler.py).

The program has two pipelines over line-delimited JSON records:

* the Session Log Analyzer (`analyze_jsonl`): a single pass over the lines of
  a captured session log, printing one row per countable assistant record and
  a trailing peak line;
* the live Turn Driver (`run_live` with `wait_for_result` and `do_turn`): per
  outbound message it drains queue items until a `result` record or the
  end-of-stream sentinel, keeps the last non-zero usage snapshot, and prints
  one row per turn.

The embedding below mirrors the source faithfully.  A raw input line is
modelled as a `Line`: its text (inspected by the code only for blankness and
carried in decode errors) paired with the result of `json.loads` on it
(`none` when the line is not valid JSON).  A decoded record keeps exactly the
fields the program reads: the `type` tag, the four usage counters (field
accesses use `.get(k, 0)`, so absent counters are the value `0`), and the
content blocks.  Printing a row is modelled by returning the `Row` value that
the shared `print_row` helper would format; the trailing summary is modelled
by `peakLine`, the pair of values interpolated into the final print.
-/

/-- The four token counters of `message.usage`, after the `.get(k, 0)`
defaulting done by the program. -/
structure Usage where
  input_tokens : Nat
  cache_creation_input_tokens : Nat
  cache_read_input_tokens : Nat
  output_tokens : Nat
deriving DecidableEq

/-- One content block of an assistant message: the program looks only at the
`type` tag and, for `text` blocks, the `text` field, for `tool_use` blocks,
the `name` field.  Every other block shape is `other`. -/
inductive Block where
  | text (s : String)
  | tool_use (name : String)
  | other
deriving DecidableEq

/-- The `message` payload of an assistant record: usage counters and content
blocks (both defaulted when absent). -/
structure Message where
  usage : Usage
  content : List Block
deriving DecidableEq

/-- A decoded record, discriminated exactly as the program does on the
`type` tag: `assistant` records carry a message; `result` records end a live
turn; everything else is only ever skipped. -/
inductive Record where
  | assistant (message : Message)
  | result
  | other
deriving DecidableEq

/-- A raw input line: its text paired with the outcome of `json.loads` on it
(`none` models a line that is not valid JSON). -/
structure Line where
  text : String
  parsed : Option Record
deriving DecidableEq

/-- One printed table row: the arguments the program passes to `print_row`. -/
structure Row where
  turn : Nat
  total : Nat
  inp : Nat
  cc : Nat
  cr : Nat
  outp : Nat
  delta : Int
  note : String
  flag : String
deriving DecidableEq

/-- `input + cache_creation + cache_read`, the total the program computes for
a usage record. -/
def tot (u : Usage) : Nat :=
  u.input_tokens + u.cache_creation_input_tokens + u.cache_read_input_tokens

/-- The note-extraction loop of `analyze_jsonl` (lines 69 to 76): scan the
content blocks in order, stopping at the first `text` block (note is its
first 40 characters) or the first `tool_use` block (note is the bracketed
tool name); the note stays empty when no such block occurs. -/
def labelOf : List Block → String
  | [] => ""
  | Block.text s :: _ => s.take 40
  | Block.tool_use n :: _ => "[" ++ n ++ "]"
  | Block.other :: bs => labelOf bs

/-- The test `line = line.strip(); if not line: continue`: the stripped line
is empty exactly when every character of the raw line is whitespace. -/
def isBlank (s : String) : Bool := s.data.all Char.isWhitespace

/-- `analyze_jsonl` (lines 44 to 84): strip each line, skip it when blank,
decode it (a decode failure propagates, modelled as `Except.error` carrying
the offending line), skip non-assistant records, skip zero-total usage, and
otherwise emit a row and advance `prev` and `turn`.  The result collects the
emitted rows together with the final `prev` and `turn` values. -/
def analyzeJsonl : List Line → Nat → Nat → Except String (List Row × Nat × Nat)
  | [], prev, turn => Except.ok ([], prev, turn)
  | l :: rest, prev, turn =>
    if isBlank l.text then
      analyzeJsonl rest prev turn
    else
      match l.parsed with
      | none => Except.error l.text
      | some obj =>
        match obj with
        | Record.assistant msg =>
          let inp := msg.usage.input_tokens
          let cc := msg.usage.cache_creation_input_tokens
          let cr := msg.usage.cache_read_input_tokens
          let outp := msg.usage.output_tokens
          let total := inp + cc + cr
          if total = 0 then
            analyzeJsonl rest prev turn
          else
            let delta : Int := (total : Int) - (prev : Int)
            let note := labelOf msg.content
            let flag := ""
            let flag := if delta > 5000 then " <<<" else flag
            let flag := if delta < -10000 then " <<< COMPACTION" else flag
            match analyzeJsonl rest total (turn + 1) with
            | Except.ok (rows, p, t) =>
              Except.ok (⟨turn + 1, total, inp, cc, cr, outp, delta, note, flag⟩ :: rows, p, t)
            | Except.error e => Except.error e
        | _ => analyzeJsonl rest prev turn

/-- The values interpolated into the trailing summary print (line 84 of the
analyzer and line 182 of the live driver): the final `prev` and the integer
percentage `prev * 100 // 200000`. -/
def peakLine (prev : Nat) : Nat × Nat := (prev, prev * 100 / 200000)

/-- The running slots of `wait_for_result`: the last stored usage snapshot
(`last_total`, `last_inp`, `last_cc`, `last_cr`, `last_out`). -/
structure Snap where
  last_total : Nat
  last_inp : Nat
  last_cc : Nat
  last_cr : Nat
  last_out : Nat
deriving DecidableEq

/-- Initial all-zero snapshot slots of `wait_for_result`. -/
def Snap.zero : Snap := ⟨0, 0, 0, 0, 0⟩

/-- Outcome of one `wait_for_result` call: a returned snapshot, a propagated
decode failure (carrying the offending line), or blocking forever on an
exhausted queue. -/
inductive WaitOutcome where
  | done (s : Snap)
  | raised (line : String)
  | blocked
deriving DecidableEq

/-- `wait_for_result` (lines 113 to 130): pop queue items (a `none` item is
the end-of-stream sentinel); on the sentinel or a `result` record return the
stored snapshot; on an assistant record with positive total overwrite the
snapshot; decode failures propagate.  An exhausted queue with no sentinel
models the blocking `q.get()`. -/
def waitForResult : List (Option Line) → Snap → WaitOutcome
  | [], _ => WaitOutcome.blocked
  | none :: _, last => WaitOutcome.done last
  | some l :: rest, last =>
    match l.parsed with
    | none => WaitOutcome.raised l.text
    | some obj =>
      match obj with
      | Record.assistant msg =>
        let inp := msg.usage.input_tokens
        let cc := msg.usage.cache_creation_input_tokens
        let cr := msg.usage.cache_read_input_tokens
        let t := inp + cc + cr
        if t > 0 then
          waitForResult rest ⟨t, inp, cc, cr, msg.usage.output_tokens⟩
        else
          waitForResult rest last
      | Record.result => WaitOutcome.done last
      | Record.other => waitForResult rest last

/-- Outcome of one `do_turn` call: an emitted row together with the updated
`prev` and `turn`, or a propagated decode failure, or blocking. -/
inductive TurnOutcome where
  | row (r : Row) (prevAfter : Nat) (turnAfter : Nat)
  | raised (line : String)
  | blocked
deriving DecidableEq

/-- `do_turn` (lines 139 to 148): run `wait_for_result` on the items queued
for this turn, increment the turn ordinal, compute the delta against `prev`,
take the note from the label (or the first 40 characters of the outbound
message when the label is empty), flag only `delta > 5000`, and advance
`prev` to the returned total. -/
def doTurn (prev turn : Nat) (msg label : String) (q : List (Option Line)) : TurnOutcome :=
  match waitForResult q Snap.zero with
  | WaitOutcome.done s =>
    let turn1 := turn + 1
    let delta : Int := (s.last_total : Int) - (prev : Int)
    let note := if label = "" then msg.take 40 else label
    let flag := if delta > 5000 then " <<<" else ""
    TurnOutcome.row
      ⟨turn1, s.last_total, s.last_inp, s.last_cc, s.last_cr, s.last_out, delta, note, flag⟩
      s.last_total turn1
  | WaitOutcome.raised l => TurnOutcome.raised l
  | WaitOutcome.blocked => TurnOutcome.blocked

/-- One live turn as `run_live` drives it: the outbound message, the label
passed to `do_turn`, and the queue items consumed by this turn. -/
structure LiveTurn where
  msg : String
  label : String
  q : List (Option Line)
deriving DecidableEq

/-- Outcome of a sequence of `do_turn` calls. -/
inductive RunOutcome where
  | ok (rows : List Row) (prevFinal : Nat)
  | raised (line : String)
  | blocked
deriving DecidableEq

/-- The `do_turn` call sequence of `run_live` (every phase of `run_live`
reduces to consecutive `do_turn` calls threading `prev` and `turn`): run each
turn in order, collecting the printed rows and the final `prev` that feeds
the trailing peak line. -/
def runLiveTurns : List LiveTurn → Nat → Nat → RunOutcome
  | [], prev, _ => RunOutcome.ok [] prev
  | t :: ts, prev, turn =>
    match doTurn prev turn t.msg t.label t.q with
    | TurnOutcome.row r p1 t1 =>
      match runLiveTurns ts p1 t1 with
      | RunOutcome.ok rows pf => RunOutcome.ok (r :: rows) pf
      | e => e
    | TurnOutcome.raised l => RunOutcome.raised l
    | TurnOutcome.blocked => RunOutcome.blocked

/-! Specification-side vocabulary used to state the claims.  These
definitions follow the wording of the spec (countable turns, last non-zero
snapshot, first usable content block) and are compared against the embedded
source functions above. -/

/-- A well-formed captured line holding the record `r`: non-blank text that
decodes to `r`.  The text field stands for the raw JSON serialization; the
program inspects it only for blankness. -/
def recLine (r : Record) : Line := ⟨"x", some r⟩

/-- The countable snapshots of a record sequence: usage and content blocks of
each assistant record whose total is non-zero, in order. -/
def countableRecs : List Record → List (Usage × List Block)
  | [] => []
  | Record.assistant m :: rs =>
    if tot m.usage = 0 then countableRecs rs else (m.usage, m.content) :: countableRecs rs
  | _ :: rs => countableRecs rs

/-- The countable snapshots of a line sequence: blank lines are skipped, then
as in `countableRecs`. -/
def countablesL : List Line → List (Usage × List Block)
  | [] => []
  | l :: rest =>
    if isBlank l.text then countablesL rest
    else
      match l.parsed with
      | some (Record.assistant m) =>
        if tot m.usage = 0 then countablesL rest else (m.usage, m.content) :: countablesL rest
      | _ => countablesL rest

/-- The rows the analyzer prints for a sequence of countable snapshots,
threading `prev` and `turn`. -/
def buildRows : List (Usage × List Block) → Nat → Nat → List Row
  | [], _, _ => []
  | (u, c) :: us, prev, turn =>
    let delta : Int := (tot u : Int) - (prev : Int)
    ⟨turn + 1, tot u, u.input_tokens, u.cache_creation_input_tokens, u.cache_read_input_tokens,
      u.output_tokens, delta, labelOf c,
      if delta < -10000 then " <<< COMPACTION" else if delta > 5000 then " <<<" else ""⟩
      :: buildRows us (tot u) (turn + 1)

/-- The final `(prev, turn)` state after a sequence of countable snapshots. -/
def buildFinal : List (Usage × List Block) → Nat × Nat → Nat × Nat
  | [], st => st
  | (u, _) :: us, st => buildFinal us (tot u, st.2 + 1)

/-- Snapshot slots built from one usage record. -/
def snapU (u : Usage) : Snap :=
  ⟨tot u, u.input_tokens, u.cache_creation_input_tokens, u.cache_read_input_tokens,
    u.output_tokens⟩

/-- Effect of one record on the snapshot slots of `wait_for_result`: an
assistant record with positive total overwrites them, everything else leaves
them unchanged. -/
def stepSnap (s : Snap) (r : Record) : Snap :=
  match r with
  | Record.assistant m => if 0 < tot m.usage then snapU m.usage else s
  | _ => s

/-- A record that counts as an observed non-zero usage snapshot. -/
def isCountable (r : Record) : Bool :=
  match r with
  | Record.assistant m => decide (0 < tot m.usage)
  | _ => false

/-- The last observed non-zero usage snapshot of a record sequence, or the
all-zero slots when none occurs. -/
def lastNonzeroSnap (rs : List Record) : Snap :=
  match rs.reverse.find? isCountable with
  | some (Record.assistant m) => snapU m.usage
  | _ => Snap.zero

/-- The first content block that is a `text` or a `tool_use` block. -/
def firstUsable (bs : List Block) : Option Block :=
  bs.find? fun b =>
    match b with
    | Block.other => false
    | _ => true

/-- One live turn given abstractly: the outbound message, the label, and the
records the subprocess emits before the terminal `result` record. -/
structure LTurn where
  msg : String
  label : String
  recs : List Record
deriving DecidableEq

/-- The queue items one live turn consumes: each emitted record as a captured
line, followed by the terminal `result` record. -/
def liveQ (rs : List Record) : List (Option Line) :=
  rs.map (fun r => some (recLine r)) ++ [some (recLine Record.result)]

/-- The `LiveTurn` fed to the turn driver for one abstract live turn. -/
def mkLiveTurn (t : LTurn) : LiveTurn := ⟨t.msg, t.label, liveQ t.recs⟩

/-- The captured session log of a live event sequence: every record of every
turn, terminal `result` records included, serialized one per line. -/
def capturedLog (ts : List LTurn) : List Line :=
  ((ts.map fun t => t.recs ++ [Record.result]).flatten).map recLine

/-- The `(ordinal, total, delta)` projection of a row. -/
def tripleOf (r : Row) : Nat × Nat × Int := (r.turn, r.total, r.delta)

/-- The `(ordinal, total, delta, flag)` projection of a row. -/
def quadOf (r : Row) : Nat × Nat × Int × String := (r.turn, r.total, r.delta, r.flag)

/-- The snapshot total one live turn would report on its own: the
`last_total` slot `wait_for_result` returns for that turn's queue items,
computed from that turn alone (`none` when the call would raise or block). -/
def liveTurnTotal (t : LiveTurn) : Option Nat :=
  match waitForResult t.q Snap.zero with
  | WaitOutcome.done s => some s.last_total
  | _ => none

example : analyzeJsonl [⟨"x", some (Record.assistant ⟨⟨1000, 0, 0, 3⟩, []⟩)⟩] 0 0
    = Except.ok ([⟨1, 1000, 1000, 0, 0, 3, 1000, "", ""⟩], 1000, 1) := by rfl

example : waitForResult [some ⟨"x", some (Record.assistant ⟨⟨7, 1, 2, 9⟩, []⟩)⟩, none] Snap.zero
    = WaitOutcome.done ⟨10, 7, 1, 2, 9⟩ := by rfl

/-! Helper lemmas. -/

lemma isBlank_x : isBlank "x" = false := by rfl

lemma countableRecs_append (xs ys : List Record) :
    countableRecs (xs ++ ys) = countableRecs xs ++ countableRecs ys := by
  induction xs with
  | nil => rfl
  | cons r rs ih =>
    cases r with
    | assistant m => by_cases h : tot m.usage = 0 <;> simp [countableRecs, h, ih]
    | result => simpa [countableRecs] using ih
    | other => simpa [countableRecs] using ih

lemma countablesL_recLines (xs : List Record) :
    countablesL (xs.map recLine) = countableRecs xs := by
  induction xs with
  | nil => rfl
  | cons r rs ih =>
    cases r with
    | assistant m =>
      by_cases h : tot m.usage = 0 <;>
        simp [countablesL, countableRecs, recLine, isBlank_x, h, ih]
    | result => simpa [countablesL, countableRecs, recLine, isBlank_x] using ih
    | other => simpa [countablesL, countableRecs, recLine, isBlank_x] using ih

lemma analyze_recLines (xs : List Record) : ∀ prev turn : Nat,
    analyzeJsonl (xs.map recLine) prev turn
      = Except.ok (buildRows (countableRecs xs) prev turn,
          buildFinal (countableRecs xs) (prev, turn)) := by
  induction xs with
  | nil => intro prev turn; rfl
  | cons r rs ih =>
    intro prev turn
    cases r with
    | assistant m =>
      by_cases h : tot m.usage = 0
      · have h' : m.usage.input_tokens + m.usage.cache_creation_input_tokens
            + m.usage.cache_read_input_tokens = 0 := h
        simp [analyzeJsonl, recLine, isBlank_x, countableRecs, h, h', ih]
      · have h' : ¬ (m.usage.input_tokens + m.usage.cache_creation_input_tokens
            + m.usage.cache_read_input_tokens = 0) := h
        simp [analyzeJsonl, recLine, isBlank_x, countableRecs, h, h', ih, buildRows,
          buildFinal, tot]
    | result => simpa [analyzeJsonl, recLine, isBlank_x, countableRecs] using ih prev turn
    | other => simpa [analyzeJsonl, recLine, isBlank_x, countableRecs] using ih prev turn

lemma analyze_ok : ∀ (lines : List Line) (prev turn : Nat) (rows : List Row) (p t : Nat),
    analyzeJsonl lines prev turn = Except.ok (rows, p, t) →
    rows = buildRows (countablesL lines) prev turn ∧
      p = (buildFinal (countablesL lines) (prev, turn)).1 ∧
      t = (buildFinal (countablesL lines) (prev, turn)).2 := by
  intro lines
  induction lines with
  | nil =>
    intro prev turn rows p t h
    simp [analyzeJsonl] at h
    simp [countablesL, buildRows, buildFinal, h.1, h.2.1, h.2.2]
  | cons l rest ih =>
    intro prev turn rows p t h
    cases hb : isBlank l.text with
    | true =>
      rw [analyzeJsonl, if_pos hb] at h
      simpa [countablesL, hb] using ih prev turn rows p t h
    | false =>
      rw [analyzeJsonl, if_neg (by simp [hb])] at h
      cases hp : l.parsed with
      | none => rw [hp] at h; simp at h
      | some obj =>
        rw [hp] at h
        cases obj with
        | assistant m =>
          dsimp only at h
          by_cases h0 : m.usage.input_tokens + m.usage.cache_creation_input_tokens
              + m.usage.cache_read_input_tokens = 0
          · rw [if_pos h0] at h
            have h0t : tot m.usage = 0 := h0
            have hcl : countablesL (l :: rest) = countablesL rest := by
              simp [countablesL, hb, hp, h0t]
            rw [hcl]
            exact ih prev turn rows p t h
          · simp only [if_neg h0] at h
            cases hrec : analyzeJsonl rest
                (m.usage.input_tokens + m.usage.cache_creation_input_tokens
                  + m.usage.cache_read_input_tokens) (turn + 1) with
            | ok z =>
              obtain ⟨rows', p', t'⟩ := z
              rw [hrec] at h
              simp only [Except.ok.injEq, Prod.mk.injEq] at h
              obtain ⟨hrows, hp', ht'⟩ := h
              have h0t : ¬ tot m.usage = 0 := h0
              have hrec2 := ih (m.usage.input_tokens + m.usage.cache_creation_input_tokens
                + m.usage.cache_read_input_tokens) (turn + 1) rows' p' t' hrec
              have hcl : countablesL (l :: rest)
                  = (m.usage, m.content) :: countablesL rest := by
                simp [countablesL, hb, hp, h0t]
              refine ⟨?_, ?_, ?_⟩
              · rw [hcl, ← hrows, hrec2.1]
                simp [buildRows, tot]
              · rw [hcl, ← hp', hrec2.2.1]
                simp [buildFinal, tot]
              · rw [hcl, ← ht', hrec2.2.2]
                simp [buildFinal, tot]
            | error e => rw [hrec] at h; simp at h
        | result =>
          simpa [countablesL, hb, hp] using ih prev turn rows p t h
        | other =>
          simpa [countablesL, hb, hp] using ih prev turn rows p t h

lemma buildRows_map_total (us : List (Usage × List Block)) : ∀ prev turn : Nat,
    (buildRows us prev turn).map Row.total = us.map fun uc => tot uc.1 := by
  induction us with
  | nil => intro prev turn; rfl
  | cons uc us ih => intro prev turn; cases uc; simp [buildRows, ih]

lemma buildRows_map_delta (us : List (Usage × List Block)) : ∀ prev turn : Nat,
    (buildRows us prev turn).map Row.delta
      = List.zipWith (fun (a b : Nat) => (a : Int) - (b : Int))
          (us.map fun uc => tot uc.1) (prev :: us.map fun uc => tot uc.1) := by
  induction us with
  | nil => intro prev turn; rfl
  | cons uc us ih => intro prev turn; cases uc; simp [buildRows, ih]

lemma buildRows_flag (us : List (Usage × List Block)) : ∀ (prev turn : Nat) (r : Row),
    r ∈ buildRows us prev turn →
    r.flag = if r.delta < -10000 then " <<< COMPACTION"
      else if r.delta > 5000 then " <<<" else "" := by
  induction us with
  | nil => intro prev turn r hr; simp [buildRows] at hr
  | cons uc us ih =>
    intro prev turn r hr
    cases uc with
    | mk u c =>
      simp only [buildRows, List.mem_cons] at hr
      cases hr with
      | inl he => subst he; rfl
      | inr hm => exact ih (tot u) (turn + 1) r hm

lemma buildRows_total_sum (us : List (Usage × List Block)) : ∀ (prev turn : Nat) (r : Row),
    r ∈ buildRows us prev turn → r.total = r.inp + r.cc + r.cr := by
  induction us with
  | nil => intro prev turn r hr; simp [buildRows] at hr
  | cons uc us ih =>
    intro prev turn r hr
    cases uc with
    | mk u c =>
      simp only [buildRows, List.mem_cons] at hr
      cases hr with
      | inl he => subst he; rfl
      | inr hm => exact ih (tot u) (turn + 1) r hm

lemma wfr_total_inv : ∀ (q : List (Option Line)) (s s' : Snap),
    waitForResult q s = WaitOutcome.done s' →
    s.last_total = s.last_inp + s.last_cc + s.last_cr →
    s'.last_total = s'.last_inp + s'.last_cc + s'.last_cr := by
  intro q
  induction q with
  | nil => intro s s' h hs; simp [waitForResult] at h
  | cons item rest ih =>
    intro s s' h hs
    cases item with
    | none =>
      rw [waitForResult] at h
      cases h
      exact hs
    | some l =>
      rw [waitForResult] at h
      cases hp : l.parsed with
      | none => rw [hp] at h; simp at h
      | some obj =>
        rw [hp] at h
        cases obj with
        | assistant m =>
          dsimp only at h
          by_cases h0 : 0 < m.usage.input_tokens + m.usage.cache_creation_input_tokens
              + m.usage.cache_read_input_tokens
          · rw [if_pos h0] at h
            exact ih _ s' h rfl
          · rw [if_neg h0] at h
            exact ih s s' h hs
        | result => cases h; exact hs
        | other => exact ih s s' h hs

lemma doTurn_row_spec (prev turn : Nat) (msg label : String) (q : List (Option Line))
    (r : Row) (p1 t1 : Nat) (h : doTurn prev turn msg label q = TurnOutcome.row r p1 t1) :
    r.turn = turn + 1 ∧ t1 = turn + 1 ∧ p1 = r.total ∧
      r.delta = (r.total : Int) - (prev : Int) ∧
      r.flag = (if r.delta > 5000 then " <<<" else "") ∧
      r.total = r.inp + r.cc + r.cr := by
  rw [doTurn] at h
  cases hw : waitForResult q Snap.zero with
  | done s =>
    rw [hw] at h
    cases h
    have hsum := wfr_total_inv q Snap.zero s hw (by rfl)
    exact ⟨rfl, rfl, rfl, rfl, rfl, hsum⟩
  | raised l => rw [hw] at h; simp at h
  | blocked => rw [hw] at h; simp at h

lemma runLive_ok_spec : ∀ (ts : List LiveTurn) (prev turn : Nat) (rows : List Row) (pf : Nat),
    runLiveTurns ts prev turn = RunOutcome.ok rows pf →
    rows.map Row.delta
        = List.zipWith (fun (a b : Nat) => (a : Int) - (b : Int))
            (rows.map Row.total) (prev :: rows.map Row.total) ∧
      (∀ r ∈ rows, r.flag = if r.delta > 5000 then " <<<" else "") ∧
      (∀ r ∈ rows, r.total = r.inp + r.cc + r.cr) := by
  intro ts
  induction ts with
  | nil =>
    intro prev turn rows pf h
    rw [runLiveTurns] at h
    cases h
    simp
  | cons t ts ih =>
    intro prev turn rows pf h
    rw [runLiveTurns] at h
    cases hd : doTurn prev turn t.msg t.label t.q with
    | row r p1 t1 =>
      rw [hd] at h
      dsimp only at h
      cases hrun : runLiveTurns ts p1 t1 with
      | ok rows' pf' =>
        rw [hrun] at h
        cases h
        obtain ⟨hr1, ht1, hp1, hdelta, hflag, hsum⟩ :=
          doTurn_row_spec prev turn t.msg t.label t.q r p1 t1 hd
        obtain ⟨ihd, ihf, ihs⟩ := ih p1 t1 rows' _ hrun
        subst hp1
        refine ⟨?_, ?_, ?_⟩
        · simp only [List.map_cons, List.zipWith_cons_cons, ihd, hdelta]
        · intro x hx
          cases List.mem_cons.mp hx with
          | inl he => subst he; exact hflag
          | inr hm => exact ihf x hm
        · intro x hx
          cases List.mem_cons.mp hx with
          | inl he => subst he; exact hsum
          | inr hm => exact ihs x hm
      | raised e => rw [hrun] at h; simp at h
      | blocked => rw [hrun] at h; simp at h
    | raised e => rw [hd] at h; dsimp only at h; simp at h
    | blocked => rw [hd] at h; dsimp only at h; simp at h

lemma wfr_append : ∀ (rs : List Record) (tail : List (Option Line)) (s : Snap),
    Record.result ∉ rs →
    waitForResult (rs.map (fun r => some (recLine r)) ++ tail) s
      = waitForResult tail (rs.foldl stepSnap s) := by
  intro rs
  induction rs with
  | nil => intro tail s _; rfl
  | cons r rs ih =>
    intro tail s hmem
    have hr : r ≠ Record.result := fun he => hmem (he ▸ List.mem_cons_self r rs)
    have hrs : Record.result ∉ rs := fun hm => hmem (List.mem_cons_of_mem r hm)
    cases r with
    | assistant m =>
      rw [List.map_cons, List.cons_append, waitForResult]
      dsimp only [recLine]
      by_cases h0 : 0 < m.usage.input_tokens + m.usage.cache_creation_input_tokens
          + m.usage.cache_read_input_tokens
      · rw [if_pos h0, List.foldl_cons]
        have hstep : stepSnap s (Record.assistant m) = snapU m.usage := by
          simp [stepSnap, tot, h0]
        rw [hstep]
        exact ih tail (snapU m.usage) hrs
      · rw [if_neg h0, List.foldl_cons]
        have hstep : stepSnap s (Record.assistant m) = s := by
          have : ¬ 0 < tot m.usage := h0
          simp [stepSnap, this]
        rw [hstep]
        exact ih tail s hrs
    | result => exact absurd rfl hr
    | other =>
      rw [List.map_cons, List.cons_append, waitForResult]
      dsimp only [recLine]
      rw [List.foldl_cons]
      have hstep : stepSnap s Record.other = s := rfl
      rw [hstep]
      exact ih tail s hrs

lemma foldl_stepSnap_nil : ∀ (rs : List Record) (s : Snap),
    countableRecs rs = [] → rs.foldl stepSnap s = s := by
  intro rs
  induction rs with
  | nil => intro s _; rfl
  | cons r rs ih =>
    intro s hc
    cases r with
    | assistant m =>
      by_cases h0 : tot m.usage = 0
      · rw [countableRecs, if_pos h0] at hc
        rw [List.foldl_cons]
        have hstep : stepSnap s (Record.assistant m) = s := by
          have : ¬ 0 < tot m.usage := by omega
          simp [stepSnap, this]
        rw [hstep]
        exact ih s hc
      · rw [countableRecs, if_neg h0] at hc
        simp at hc
    | result =>
      rw [List.foldl_cons]
      exact ih s hc
    | other =>
      rw [List.foldl_cons]
      exact ih s hc

lemma foldl_stepSnap_single : ∀ (rs : List Record) (s : Snap) (u : Usage) (c : List Block),
    countableRecs rs = [(u, c)] → rs.foldl stepSnap s = snapU u := by
  intro rs
  induction rs with
  | nil => intro s u c hc; simp [countableRecs] at hc
  | cons r rs ih =>
    intro s u c hc
    cases r with
    | assistant m =>
      by_cases h0 : tot m.usage = 0
      · rw [countableRecs, if_pos h0] at hc
        rw [List.foldl_cons]
        have hstep : stepSnap s (Record.assistant m) = s := by
          have : ¬ 0 < tot m.usage := by omega
          simp [stepSnap, this]
        rw [hstep]
        exact ih s u c hc
      · rw [countableRecs, if_neg h0] at hc
        simp only [List.cons.injEq, Prod.mk.injEq] at hc
        obtain ⟨⟨hu, _⟩, hnil⟩ := hc
        rw [List.foldl_cons]
        have hstep : stepSnap s (Record.assistant m) = snapU m.usage := by
          have : 0 < tot m.usage := by omega
          simp [stepSnap, this]
        rw [hstep, foldl_stepSnap_nil rs (snapU m.usage) hnil, hu]
    | result =>
      rw [List.foldl_cons]
      exact ih s u c hc
    | other =>
      rw [List.foldl_cons]
      exact ih s u c hc

lemma analyze_recChunk : ∀ (xs : List Record) (l2 : List Line) (prev turn : Nat)
    (rows2 : List Row) (p2 t2 : Nat),
    analyzeJsonl l2 (buildFinal (countableRecs xs) (prev, turn)).1
        (buildFinal (countableRecs xs) (prev, turn)).2 = Except.ok (rows2, p2, t2) →
    analyzeJsonl (xs.map recLine ++ l2) prev turn
      = Except.ok (buildRows (countableRecs xs) prev turn ++ rows2, p2, t2) := by
  intro xs
  induction xs with
  | nil =>
    intro l2 prev turn rows2 p2 t2 h
    simpa [countableRecs, buildRows, buildFinal] using h
  | cons r rs ih =>
    intro l2 prev turn rows2 p2 t2 h
    cases r with
    | assistant m =>
      by_cases h0 : tot m.usage = 0
      · have h0s : m.usage.input_tokens + m.usage.cache_creation_input_tokens
            + m.usage.cache_read_input_tokens = 0 := h0
        rw [countableRecs, if_pos h0] at h
        rw [List.map_cons, List.cons_append, analyzeJsonl]
        rw [if_neg (by simp [recLine, isBlank_x])]
        dsimp only [recLine]
        rw [if_pos h0s]
        rw [countableRecs, if_pos h0]
        exact ih l2 prev turn rows2 p2 t2 h
      · have h0s : ¬ (m.usage.input_tokens + m.usage.cache_creation_input_tokens
            + m.usage.cache_read_input_tokens = 0) := h0
        rw [countableRecs, if_neg h0] at h
        rw [List.map_cons, List.cons_append, analyzeJsonl]
        rw [if_neg (by simp [recLine, isBlank_x])]
        dsimp only [recLine]
        rw [if_neg h0s]
        have hrest := ih l2 (m.usage.input_tokens + m.usage.cache_creation_input_tokens
          + m.usage.cache_read_input_tokens) (turn + 1) rows2 p2 t2 (by
            have : buildFinal ((m.usage, m.content) :: countableRecs rs) (prev, turn)
                = buildFinal (countableRecs rs)
                  (tot m.usage, turn + 1) := by simp [buildFinal]
            rw [this] at h
            simpa [tot] using h)
        rw [hrest]
        rw [countableRecs, if_neg h0]
        simp [buildRows, tot]
    | result =>
      rw [List.map_cons, List.cons_append, analyzeJsonl]
      rw [if_neg (by simp [recLine, isBlank_x])]
      dsimp only [recLine]
      exact ih l2 prev turn rows2 p2 t2 h
    | other =>
      rw [List.map_cons, List.cons_append, analyzeJsonl]
      rw [if_neg (by simp [recLine, isBlank_x])]
      dsimp only [recLine]
      exact ih l2 prev turn rows2 p2 t2 h

lemma runLive_map_total : ∀ (ts : List LiveTurn) (prev turn : Nat) (rows : List Row) (pf : Nat),
    runLiveTurns ts prev turn = RunOutcome.ok rows pf →
    rows.map (fun r => some r.total) = ts.map liveTurnTotal := by
  intro ts
  induction ts with
  | nil =>
    intro prev turn rows pf h
    rw [runLiveTurns] at h
    cases h
    rfl
  | cons t ts ih =>
    intro prev turn rows pf h
    rw [runLiveTurns] at h
    cases hd : doTurn prev turn t.msg t.label t.q with
    | row r p1 t1 =>
      rw [hd] at h
      dsimp only at h
      cases hrun : runLiveTurns ts p1 t1 with
      | ok rows' pf' =>
        rw [hrun] at h
        cases h
        have hr : some r.total = liveTurnTotal t := by
          rw [doTurn] at hd
          cases hw : waitForResult t.q Snap.zero with
          | done s =>
            rw [hw] at hd
            cases hd
            simp [liveTurnTotal, hw]
          | raised l => rw [hw] at hd; simp at hd
          | blocked => rw [hw] at hd; simp at hd
        simp only [List.map_cons, hr]
        rw [ih p1 t1 rows' _ hrun]
      | raised e => rw [hrun] at h; simp at h
      | blocked => rw [hrun] at h; simp at h
    | raised e => rw [hd] at h; dsimp only at h; simp at h
    | blocked => rw [hd] at h; dsimp only at h; simp at h

/-! Claim theorems. -/

/-- C1 (counterexample): two countable assistant records with totals 1000 and
1000.  The cumulative total printed after countable turn 2 is 1000 (that
record's own snapshot total), while the sum of (new + cache-creation +
cache-read) over the countable turns up to and including turn 2 is 2000: the
printed total is not that sum. -/
theorem c1_counterexample :
    analyzeJsonl [recLine (Record.assistant ⟨⟨1000, 0, 0, 1⟩, []⟩),
        recLine (Record.assistant ⟨⟨1000, 0, 0, 1⟩, []⟩)] 0 0
      = Except.ok ([⟨1, 1000, 1000, 0, 0, 1, 1000, "", ""⟩,
          ⟨2, 1000, 1000, 0, 0, 1, 0, "", ""⟩], 1000, 2) ∧
    (1000 : Nat) + 1000 ≠ 1000 := ⟨by rfl, by decide⟩

/-- C1 (amended): in both pipelines the cumulative total printed after
countable turn i equals that turn's own snapshot total — new + cache-creation
+ cache-read of turn i alone.  The Analyzer prints each countable record's
total, and the live Turn Driver prints the snapshot total `wait_for_result`
computed from that turn's queue items alone; the running `prev` is replaced
by each new total, never summed. -/
theorem c1_total_is_own_snapshot (lines : List Line) (rows : List Row) (p t : Nat)
    (ts : List LiveTurn) (rowsL : List Row) (pf : Nat) :
    (analyzeJsonl lines 0 0 = Except.ok (rows, p, t) →
      rows.map Row.total = (countablesL lines).map fun uc => tot uc.1) ∧
    (runLiveTurns ts 0 0 = RunOutcome.ok rowsL pf →
      rowsL.map (fun r => some r.total) = ts.map liveTurnTotal) := by
  constructor
  · intro h
    obtain ⟨hrows, _, _⟩ := analyze_ok lines 0 0 rows p t h
    subst hrows
    exact buildRows_map_total _ 0 0
  · intro h
    exact runLive_map_total ts 0 0 rowsL pf h

theorem c1_total_is_own_snapshot_witness :
    (([⟨1, 1000, 1000, 0, 0, 3, 1000, "", ""⟩] : List Row).map Row.total
        = (countablesL [recLine (Record.assistant ⟨⟨1000, 0, 0, 3⟩, []⟩)]).map
            fun uc => tot uc.1) ∧
    (([⟨1, 1000, 1000, 0, 0, 3, 1000, "auto", ""⟩] : List Row).map (fun r => some r.total)
        = ([⟨"Say OK.", "auto", [some (recLine (Record.assistant ⟨⟨1000, 0, 0, 3⟩, []⟩)),
            some (recLine Record.result)]⟩] : List LiveTurn).map liveTurnTotal) :=
  ⟨(c1_total_is_own_snapshot [recLine (Record.assistant ⟨⟨1000, 0, 0, 3⟩, []⟩)]
      [⟨1, 1000, 1000, 0, 0, 3, 1000, "", ""⟩] 1000 1
      [⟨"Say OK.", "auto", [some (recLine (Record.assistant ⟨⟨1000, 0, 0, 3⟩, []⟩)),
        some (recLine Record.result)]⟩]
      [⟨1, 1000, 1000, 0, 0, 3, 1000, "auto", ""⟩] 1000).1 rfl,
   (c1_total_is_own_snapshot [recLine (Record.assistant ⟨⟨1000, 0, 0, 3⟩, []⟩)]
      [⟨1, 1000, 1000, 0, 0, 3, 1000, "", ""⟩] 1000 1
      [⟨"Say OK.", "auto", [some (recLine (Record.assistant ⟨⟨1000, 0, 0, 3⟩, []⟩)),
        some (recLine Record.result)]⟩]
      [⟨1, 1000, 1000, 0, 0, 3, 1000, "auto", ""⟩] 1000).2 rfl⟩

/-- C2: an assistant record whose computed total is zero is skipped by both
pipelines: the analyzer leaves `prev` and `turn` untouched and emits no row
(the whole run equals the run without that line), and `wait_for_result`
leaves its stored snapshot slots untouched. -/
theorem c2_zero_total_skipped (l : Line) (m : Message) (rest : List Line)
    (prev turn : Nat) (q : List (Option Line)) (s : Snap)
    (hb : isBlank l.text = false) (hp : l.parsed = some (Record.assistant m))
    (h0 : m.usage.input_tokens + m.usage.cache_creation_input_tokens
      + m.usage.cache_read_input_tokens = 0) :
    analyzeJsonl (l :: rest) prev turn = analyzeJsonl rest prev turn ∧
    waitForResult (some l :: q) s = waitForResult q s := by
  constructor
  · rw [analyzeJsonl, if_neg (by simp [hb]), hp]
    dsimp only
    rw [if_pos h0]
  · rw [waitForResult, hp]
    dsimp only
    rw [if_neg (by omega)]

theorem c2_zero_total_skipped_witness :
    analyzeJsonl [⟨"x", some (Record.assistant ⟨⟨0, 0, 0, 9⟩, [Block.text "hi"]⟩)⟩] 5 3
        = analyzeJsonl [] 5 3 ∧
      waitForResult [some ⟨"x", some (Record.assistant ⟨⟨0, 0, 0, 9⟩, [Block.text "hi"]⟩)⟩]
          ⟨42, 1, 2, 3, 4⟩ = waitForResult [] ⟨42, 1, 2, 3, 4⟩ :=
  c2_zero_total_skipped ⟨"x", some (Record.assistant ⟨⟨0, 0, 0, 9⟩, [Block.text "hi"]⟩)⟩
    ⟨⟨0, 0, 0, 9⟩, [Block.text "hi"]⟩ [] 5 3 [] ⟨42, 1, 2, 3, 4⟩ (by rfl) rfl rfl

/-- C3 (counterexample): in the live Turn Driver a delta of -10001 yields the
empty flag, not the compaction flag: `do_turn` flags only `delta > 5000`. -/
theorem c3_counterexample :
    doTurn 15001 1 "Say OK." "auto"
        [some (recLine (Record.assistant ⟨⟨5000, 0, 0, 2⟩, []⟩)),
          some (recLine Record.result)]
      = TurnOutcome.row ⟨2, 5000, 5000, 0, 0, 2, -10001, "auto", ""⟩ 5000 2 ∧
    ("" : String) ≠ " <<< COMPACTION" := ⟨by rfl, by decide⟩

/-- C3 (amended): flagging is a pure function of the signed delta with fixed
thresholds, but the two pipelines use different functions: the Analyzer flags
`delta > 5000` with " <<<" and `delta < -10000` with " <<< COMPACTION", while
the live Turn Driver flags only `delta > 5000` and leaves every other delta
(compactions included) unflagged. -/
theorem c3_flag_function_of_delta (lines : List Line) (rows : List Row) (p t : Nat)
    (ts : List LiveTurn) (rowsL : List Row) (pf : Nat) :
    (analyzeJsonl lines 0 0 = Except.ok (rows, p, t) →
      ∀ r ∈ rows, r.flag = if r.delta < -10000 then " <<< COMPACTION"
        else if r.delta > 5000 then " <<<" else "") ∧
    (runLiveTurns ts 0 0 = RunOutcome.ok rowsL pf →
      ∀ r ∈ rowsL, r.flag = if r.delta > 5000 then " <<<" else "") := by
  constructor
  · intro h r hr
    obtain ⟨hrows, _, _⟩ := analyze_ok lines 0 0 rows p t h
    exact buildRows_flag _ 0 0 r (hrows ▸ hr)
  · intro h
    exact (runLive_ok_spec ts 0 0 rowsL pf h).2.1

theorem c3_flag_function_of_delta_witness :
    (∀ r ∈ ([⟨1, 1000, 1000, 0, 0, 3, 1000, "", ""⟩] : List Row),
      r.flag = if r.delta < -10000 then " <<< COMPACTION"
        else if r.delta > 5000 then " <<<" else "") ∧
    (∀ r ∈ ([⟨1, 1000, 1000, 0, 0, 3, 1000, "auto", ""⟩] : List Row),
      r.flag = if r.delta > 5000 then " <<<" else "") :=
  ⟨(c3_flag_function_of_delta [recLine (Record.assistant ⟨⟨1000, 0, 0, 3⟩, []⟩)]
      [⟨1, 1000, 1000, 0, 0, 3, 1000, "", ""⟩] 1000 1
      [⟨"Say OK.", "auto", [some (recLine (Record.assistant ⟨⟨1000, 0, 0, 3⟩, []⟩)),
        some (recLine Record.result)]⟩]
      [⟨1, 1000, 1000, 0, 0, 3, 1000, "auto", ""⟩] 1000).1 rfl,
   (c3_flag_function_of_delta [recLine (Record.assistant ⟨⟨1000, 0, 0, 3⟩, []⟩)]
      [⟨1, 1000, 1000, 0, 0, 3, 1000, "", ""⟩] 1000 1
      [⟨"Say OK.", "auto", [some (recLine (Record.assistant ⟨⟨1000, 0, 0, 3⟩, []⟩)),
        some (recLine Record.result)]⟩]
      [⟨1, 1000, 1000, 0, 0, 3, 1000, "auto", ""⟩] 1000).2 rfl⟩

/-- C4: in both pipelines, starting from `prev = 0`, every emitted row has
total = new + cache-creation + cache-read of its snapshot, and delta =
total - previous_total, where previous_total is 0 for the first countable
turn and the previous row's total afterwards. -/
theorem c4_accumulator (lines : List Line) (rows : List Row) (p t : Nat)
    (ts : List LiveTurn) (rowsL : List Row) (pf : Nat) :
    (analyzeJsonl lines 0 0 = Except.ok (rows, p, t) →
      rows.map Row.delta
          = List.zipWith (fun (a b : Nat) => (a : Int) - (b : Int))
              (rows.map Row.total) (0 :: rows.map Row.total) ∧
        ∀ r ∈ rows, r.total = r.inp + r.cc + r.cr) ∧
    (runLiveTurns ts 0 0 = RunOutcome.ok rowsL pf →
      rowsL.map Row.delta
          = List.zipWith (fun (a b : Nat) => (a : Int) - (b : Int))
              (rowsL.map Row.total) (0 :: rowsL.map Row.total) ∧
        ∀ r ∈ rowsL, r.total = r.inp + r.cc + r.cr) := by
  constructor
  · intro h
    obtain ⟨hrows, _, _⟩ := analyze_ok lines 0 0 rows p t h
    subst hrows
    refine ⟨?_, fun r hr => buildRows_total_sum _ 0 0 r hr⟩
    rw [buildRows_map_delta, buildRows_map_total]
  · intro h
    obtain ⟨hd, _, hs⟩ := runLive_ok_spec ts 0 0 rowsL pf h
    exact ⟨hd, hs⟩

theorem c4_accumulator_witness :
    (([⟨1, 1000, 1000, 0, 0, 3, 1000, "", ""⟩] : List Row).map Row.delta
        = List.zipWith (fun (a b : Nat) => (a : Int) - (b : Int))
            (([⟨1, 1000, 1000, 0, 0, 3, 1000, "", ""⟩] : List Row).map Row.total)
            (0 :: ([⟨1, 1000, 1000, 0, 0, 3, 1000, "", ""⟩] : List Row).map Row.total) ∧
      ∀ r ∈ ([⟨1, 1000, 1000, 0, 0, 3, 1000, "", ""⟩] : List Row),
        r.total = r.inp + r.cc + r.cr) ∧
    (([⟨1, 1000, 1000, 0, 0, 3, 1000, "auto", ""⟩] : List Row).map Row.delta
        = List.zipWith (fun (a b : Nat) => (a : Int) - (b : Int))
            (([⟨1, 1000, 1000, 0, 0, 3, 1000, "auto", ""⟩] : List Row).map Row.total)
            (0 :: ([⟨1, 1000, 1000, 0, 0, 3, 1000, "auto", ""⟩] : List Row).map Row.total) ∧
      ∀ r ∈ ([⟨1, 1000, 1000, 0, 0, 3, 1000, "auto", ""⟩] : List Row),
        r.total = r.inp + r.cc + r.cr) :=
  ⟨(c4_accumulator [recLine (Record.assistant ⟨⟨1000, 0, 0, 3⟩, []⟩)]
      [⟨1, 1000, 1000, 0, 0, 3, 1000, "", ""⟩] 1000 1
      [⟨"Say OK.", "auto", [some (recLine (Record.assistant ⟨⟨1000, 0, 0, 3⟩, []⟩)),
        some (recLine Record.result)]⟩]
      [⟨1, 1000, 1000, 0, 0, 3, 1000, "auto", ""⟩] 1000).1 rfl,
   (c4_accumulator [recLine (Record.assistant ⟨⟨1000, 0, 0, 3⟩, []⟩)]
      [⟨1, 1000, 1000, 0, 0, 3, 1000, "", ""⟩] 1000 1
      [⟨"Say OK.", "auto", [some (recLine (Record.assistant ⟨⟨1000, 0, 0, 3⟩, []⟩)),
        some (recLine Record.result)]⟩]
      [⟨1, 1000, 1000, 0, 0, 3, 1000, "auto", ""⟩] 1000).2 rfl⟩

/-- C6 (code bug): a session whose countable totals are 15000 then 500 (a
compaction).  The trailing summary line labelled Peak interpolates the final
`prev`, 500, and reports 0 percent of the 200K window, although the maximum
cumulative total observed over the session is 15000: the code prints the last
total, not the peak. -/
theorem c6_peak_line_is_last_not_max :
    analyzeJsonl [recLine (Record.assistant ⟨⟨15000, 0, 0, 1⟩, []⟩),
        recLine (Record.assistant ⟨⟨500, 0, 0, 1⟩, []⟩)] 0 0
      = Except.ok ([⟨1, 15000, 15000, 0, 0, 1, 15000, "", " <<<"⟩,
          ⟨2, 500, 500, 0, 0, 1, -14500, "", " <<< COMPACTION"⟩], 500, 2) ∧
    peakLine 500 = (500, 0) ∧
    List.foldr max 0 [15000, 500] = 15000 ∧ (500 : Nat) ≠ 15000 :=
  ⟨by rfl, by rfl, by rfl, by decide⟩

set_option maxRecDepth 4096 in
/-- C7: label extraction scans the content blocks in order and the first
block that is a text block or a tool invocation decides the label: the first
40 characters of the text, or the bracketed tool name; with no usable block
the label is empty.  In particular a single tool_use block named Read yields
the label [Read], and a 55-character text yields its first 40 characters. -/
theorem c7_label_extraction :
    (∀ bs : List Block, labelOf bs
        = match firstUsable bs with
          | some (Block.text s) => s.take 40
          | some (Block.tool_use n) => "[" ++ n ++ "]"
          | _ => "") ∧
    labelOf [Block.tool_use "Read"] = "[Read]" ∧
    labelOf [Block.text "Hello there, this is a longer message than forty chars"]
      = "Hello there, this is a longer message th" := by
  refine ⟨?_, by rfl, by rfl⟩
  intro bs
  induction bs with
  | nil => rfl
  | cons b bs ih =>
    cases b with
    | text s => rfl
    | tool_use n => rfl
    | other => exact ih

/-- C9 (counterexample): a scan containing a line that is not valid JSON
aborts with the propagated decode failure at that line: the following
assistant record is never processed and no rows are produced, rather than
printing an excerpt and continuing. -/
theorem c9_counterexample :
    analyzeJsonl [recLine (Record.assistant ⟨⟨1000, 0, 0, 1⟩, []⟩), ⟨"oops", none⟩,
        recLine (Record.assistant ⟨⟨2000, 0, 0, 1⟩, []⟩)] 0 0
      = Except.error "oops" := by rfl

/-- C9 (amended): a non-blank line that is not valid JSON raises the decode
failure out of both pipelines (`json.loads` is unguarded in both): the
analyzer scan and the live turn abort at that line; nothing is printed and no
later line is processed. -/
theorem c9_malformed_is_fatal (l : Line) (rest : List Line) (prev turn : Nat)
    (q : List (Option Line)) (s : Snap)
    (hb : isBlank l.text = false) (hp : l.parsed = none) :
    analyzeJsonl (l :: rest) prev turn = Except.error l.text ∧
    waitForResult (some l :: q) s = WaitOutcome.raised l.text := by
  constructor
  · rw [analyzeJsonl, if_neg (by simp [hb]), hp]
  · rw [waitForResult, hp]

theorem c9_malformed_is_fatal_witness :
    analyzeJsonl [⟨"oops", none⟩, recLine Record.other] 7 2 = Except.error "oops" ∧
    waitForResult [some ⟨"oops", none⟩, none] ⟨1, 1, 0, 0, 0⟩
      = WaitOutcome.raised "oops" :=
  c9_malformed_is_fatal ⟨"oops", none⟩ [recLine Record.other] 7 2 [none]
    ⟨1, 1, 0, 0, 0⟩ (by rfl) rfl

/-- C10: a blank or whitespace-only line is skipped by the analyzer before
JSON decoding: even when its parse result would be a failure, the run equals
the run on the remaining lines with the same `prev` and `turn`, so it is not
a decode error, does not advance the turn ordinal and does not change
previous_total. -/
theorem c10_blank_line_skipped (l : Line) (rest : List Line) (prev turn : Nat)
    (h : isBlank l.text = true) :
    analyzeJsonl (l :: rest) prev turn = analyzeJsonl rest prev turn := by
  rw [analyzeJsonl, if_pos h]

theorem c10_blank_line_skipped_witness :
    analyzeJsonl [⟨" ", none⟩, ⟨"x", some (Record.assistant ⟨⟨5, 0, 0, 1⟩, []⟩)⟩] 7 3
      = analyzeJsonl [⟨"x", some (Record.assistant ⟨⟨5, 0, 0, 1⟩, []⟩)⟩] 7 3 :=
  c10_blank_line_skipped ⟨" ", none⟩ [⟨"x", some (Record.assistant ⟨⟨5, 0, 0, 1⟩, []⟩)⟩]
    7 3 (by rfl)

lemma foldl_stepSnap_find : ∀ (rs : List Record) (s : Snap),
    rs.foldl stepSnap s = (match rs.reverse.find? isCountable with
      | some (Record.assistant m) => snapU m.usage
      | _ => s) := by
  intro rs
  induction rs with
  | nil => intro s; rfl
  | cons r rs ih =>
    intro s
    rw [List.foldl_cons, ih (stepSnap s r)]
    rw [List.reverse_cons, List.find?_append]
    cases hf : rs.reverse.find? isCountable with
    | some x =>
      have hx : isCountable x = true := List.find?_some hf
      cases x with
      | assistant m => rfl
      | result => simp [isCountable] at hx
      | other => simp [isCountable] at hx
    | none =>
      cases r with
      | assistant m =>
        by_cases h0 : 0 < tot m.usage
        · have hc : isCountable (Record.assistant m) = true := by
            simp [isCountable, h0]
          simp [List.find?, hc, stepSnap, h0, Option.or]
        · have hc : isCountable (Record.assistant m) = false := by
            simp [isCountable, h0]
          simp [List.find?, hc, stepSnap, h0, Option.or]
      | result => simp [List.find?, isCountable, stepSnap, Option.or]
      | other => simp [List.find?, isCountable, stepSnap, Option.or]

/-- C8: when the end-of-stream sentinel arrives while a turn is still
awaiting its terminal result record, `wait_for_result` returns at once with
the last observed non-zero usage snapshot of the turn (or the all-zero
counters when none was observed) instead of waiting on the queue. -/
theorem c8_eos_closes_turn (rs : List Record) (h : Record.result ∉ rs) :
    waitForResult (rs.map (fun r => some (recLine r)) ++ [none]) Snap.zero
      = WaitOutcome.done (lastNonzeroSnap rs) := by
  rw [wfr_append rs [none] Snap.zero h]
  rw [waitForResult]
  rw [foldl_stepSnap_find rs Snap.zero]
  rfl

theorem c8_eos_closes_turn_witness :
    waitForResult ([Record.assistant ⟨⟨1000, 0, 0, 7⟩, []⟩,
        Record.assistant ⟨⟨0, 0, 0, 0⟩, []⟩, Record.other].map
          (fun r => some (recLine r)) ++ [none]) Snap.zero
      = WaitOutcome.done (lastNonzeroSnap [Record.assistant ⟨⟨1000, 0, 0, 7⟩, []⟩,
          Record.assistant ⟨⟨0, 0, 0, 0⟩, []⟩, Record.other]) :=
  c8_eos_closes_turn [Record.assistant ⟨⟨1000, 0, 0, 7⟩, []⟩,
    Record.assistant ⟨⟨0, 0, 0, 0⟩, []⟩, Record.other] (by decide)

lemma c5_aux : ∀ (ts : List LTurn) (prev turn : Nat),
    (∀ t ∈ ts, Record.result ∉ t.recs) →
    (∀ t ∈ ts, ∃ u c, countableRecs t.recs = [(u, c)]) →
    ∃ rowsL pf rowsA p tn,
      runLiveTurns (ts.map mkLiveTurn) prev turn = RunOutcome.ok rowsL pf ∧
      analyzeJsonl (capturedLog ts) prev turn = Except.ok (rowsA, p, tn) ∧
      rowsL.map tripleOf = rowsA.map tripleOf ∧
      ((∀ r ∈ rowsA, (-10000 : Int) ≤ r.delta) → rowsL.map quadOf = rowsA.map quadOf) := by
  intro ts
  induction ts with
  | nil =>
    intro prev turn _ _
    exact ⟨[], prev, [], prev, turn, rfl, rfl, rfl, fun _ => rfl⟩
  | cons a as ih =>
    intro prev turn h1 h2
    obtain ⟨u, c, hc⟩ := h2 a (List.mem_cons_self a as)
    have hnr : Record.result ∉ a.recs := h1 a (List.mem_cons_self a as)
    have hwfr : waitForResult (liveQ a.recs) Snap.zero = WaitOutcome.done (snapU u) := by
      simp only [liveQ]
      rw [wfr_append a.recs [some (recLine Record.result)] Snap.zero hnr]
      rw [foldl_stepSnap_single a.recs Snap.zero u c hc]
      rfl
    have hdo : doTurn prev turn a.msg a.label (liveQ a.recs)
        = TurnOutcome.row ⟨turn + 1, tot u, u.input_tokens, u.cache_creation_input_tokens,
            u.cache_read_input_tokens, u.output_tokens, (tot u : Int) - (prev : Int),
            if a.label = "" then a.msg.take 40 else a.label,
            if (tot u : Int) - (prev : Int) > 5000 then " <<<" else ""⟩
            (tot u) (turn + 1) := by
      rw [doTurn, hwfr]
      rfl
    obtain ⟨rowsL', pf, rowsA', p, tn, hrunL, hana, htriple, hquad⟩ :=
      ih (tot u) (turn + 1) (fun x hx => h1 x (List.mem_cons_of_mem a hx))
        (fun x hx => h2 x (List.mem_cons_of_mem a hx))
    have hcnt : countableRecs (a.recs ++ [Record.result]) = [(u, c)] := by
      rw [countableRecs_append, hc]
      rfl
    have hcap : capturedLog (a :: as)
        = (a.recs ++ [Record.result]).map recLine ++ capturedLog as := by
      simp [capturedLog]
    have hanaCons : analyzeJsonl (capturedLog (a :: as)) prev turn
        = Except.ok ((⟨turn + 1, tot u, u.input_tokens, u.cache_creation_input_tokens,
            u.cache_read_input_tokens, u.output_tokens, (tot u : Int) - (prev : Int),
            labelOf c,
            if (tot u : Int) - (prev : Int) < -10000 then " <<< COMPACTION"
            else if (tot u : Int) - (prev : Int) > 5000 then " <<<" else ""⟩ : Row)
            :: rowsA', p, tn) := by
      have h5 := analyze_recChunk (a.recs ++ [Record.result]) (capturedLog as)
        prev turn rowsA' p tn (by rw [hcnt]; exact hana)
      rw [hcnt] at h5
      rw [hcap, h5]
      rfl
    have hrun : runLiveTurns ((a :: as).map mkLiveTurn) prev turn
        = RunOutcome.ok ((⟨turn + 1, tot u, u.input_tokens, u.cache_creation_input_tokens,
            u.cache_read_input_tokens, u.output_tokens, (tot u : Int) - (prev : Int),
            if a.label = "" then a.msg.take 40 else a.label,
            if (tot u : Int) - (prev : Int) > 5000 then " <<<" else ""⟩ : Row)
            :: rowsL') pf := by
      rw [List.map_cons, runLiveTurns]
      dsimp only [mkLiveTurn]
      rw [hdo]
      dsimp only
      rw [hrunL]
    refine ⟨_, pf, _, p, tn, hrun, hanaCons, ?_, ?_⟩
    · simp only [List.map_cons]
      rw [htriple]
      rfl
    · intro hge
      have hgeH : (-10000 : Int) ≤ (tot u : Int) - (prev : Int) := by
        have h8 := hge _ (List.mem_cons_self _ rowsA')
        exact h8
      simp only [List.map_cons]
      rw [hquad (fun r hr => hge r (List.mem_cons_of_mem _ hr))]
      simp only [quadOf]
      rw [if_neg (show ¬ (tot u : Int) - (prev : Int) < -10000 by omega)]

/-- C5 (counterexample): the same two-turn event sequence (totals 15000 then
500, a compaction) replayed through the Analyzer does not reproduce the live
rows: the live second row is unflagged while the replayed second row carries
the compaction flag, so the (ordinal, total, delta, flag) tuples and the row
text differ. -/
theorem c5_counterexample :
    runLiveTurns ([⟨"a", "auto", [Record.assistant ⟨⟨15000, 0, 0, 1⟩, []⟩]⟩,
        ⟨"b", "auto", [Record.assistant ⟨⟨500, 0, 0, 1⟩, []⟩]⟩].map mkLiveTurn) 0 0
      = RunOutcome.ok [⟨1, 15000, 15000, 0, 0, 1, 15000, "auto", " <<<"⟩,
          ⟨2, 500, 500, 0, 0, 1, -14500, "auto", ""⟩] 500 ∧
    analyzeJsonl (capturedLog [⟨"a", "auto", [Record.assistant ⟨⟨15000, 0, 0, 1⟩, []⟩]⟩,
        ⟨"b", "auto", [Record.assistant ⟨⟨500, 0, 0, 1⟩, []⟩]⟩]) 0 0
      = Except.ok ([⟨1, 15000, 15000, 0, 0, 1, 15000, "", " <<<"⟩,
          ⟨2, 500, 500, 0, 0, 1, -14500, "", " <<< COMPACTION"⟩], 500, 2) ∧
    quadOf (⟨2, 500, 500, 0, 0, 1, -14500, "auto", ""⟩ : Row)
      ≠ quadOf (⟨2, 500, 500, 0, 0, 1, -14500, "", " <<< COMPACTION"⟩ : Row) :=
  ⟨by rfl, by rfl, by decide⟩

/-- C5 (amended): replaying a captured log of a live event sequence through
the Analyzer reproduces the ordered (ordinal, total, delta) triples of the
live rows, provided every live turn holds exactly one non-zero-usage
assistant record; the full (ordinal, total, delta, flag) tuples also agree
whenever no delta is below -10000 (the live driver never emits the compaction
flag).  Notes, and hence the full row text, may still differ: the live note
comes from the outbound prompt, the replayed note from the content blocks. -/
theorem c5_replay_equivalence (ts : List LTurn)
    (h1 : ∀ t ∈ ts, Record.result ∉ t.recs)
    (h2 : ∀ t ∈ ts, ∃ u c, countableRecs t.recs = [(u, c)]) :
    ∃ rowsL pf rowsA p tn,
      runLiveTurns (ts.map mkLiveTurn) 0 0 = RunOutcome.ok rowsL pf ∧
      analyzeJsonl (capturedLog ts) 0 0 = Except.ok (rowsA, p, tn) ∧
      rowsL.map tripleOf = rowsA.map tripleOf ∧
      ((∀ r ∈ rowsA, (-10000 : Int) ≤ r.delta) → rowsL.map quadOf = rowsA.map quadOf) :=
  c5_aux ts 0 0 h1 h2

theorem c5_replay_equivalence_witness :
    ∃ rowsL pf rowsA p tn,
      runLiveTurns ([⟨"Say OK.", "auto",
          [Record.assistant ⟨⟨1000, 0, 0, 3⟩, []⟩]⟩].map mkLiveTurn) 0 0
        = RunOutcome.ok rowsL pf ∧
      analyzeJsonl (capturedLog [⟨"Say OK.", "auto",
          [Record.assistant ⟨⟨1000, 0, 0, 3⟩, []⟩]⟩]) 0 0
        = Except.ok (rowsA, p, tn) ∧
      rowsL.map tripleOf = rowsA.map tripleOf ∧
      ((∀ r ∈ rowsA, (-10000 : Int) ≤ r.delta) → rowsL.map quadOf = rowsA.map quadOf) :=
  c5_replay_equivalence [⟨"Say OK.", "auto", [Record.assistant ⟨⟨1000, 0, 0, 3⟩, []⟩]⟩]
    (by decide)
    (by
      intro x hx
      rw [List.mem_singleton] at hx
      subst hx
      exact ⟨⟨1000, 0, 0, 3⟩, [], rfl⟩)
